import Mathlib

set_option maxHeartbeats 1000000
set_option maxRecDepth 8000

/-
Shallow embedding of the rtt-fuzzer drive loop (src/rtt-module.js) and of the
helper functions it uses (log_crash, deep_compare, object_keypaths).  The
external collaborators that are not part of the repository are modelled from
their documented interfaces: the jazzer FuzzedDataProvider is modelled per the
spec's Input Cursor contract (deterministic decoding, fixed-width draws), the
JS builtins JSON.stringify / isNaN are modelled on the JSON-like value type
below, and the sha1 content hash is modelled as the hashed content itself
(a collision-free abstraction).
-/

/-- JSON-like values: the structured data exchanged with the rules engine. -/
inductive JVal where
  | null
  | num (n : Int)
  | str (s : String)
  | bool (b : Bool)
  | arr (xs : List JVal)
  | obj (fields : List (String × JVal))

/- Canonical serialization, modelling JSON.stringify on JVal values.
Object fields serialize in their list order, matching JS insertion order. -/
mutual
def JVal.stringify : JVal → String
  | .null => "null"
  | .num n => toString n
  | .str s => "\x22" ++ s ++ "\x22"
  | .bool b => if b then "true" else "false"
  | .arr xs => "[" ++ stringifyItems xs ++ "]"
  | .obj fs => "\x7b" ++ stringifyFields fs ++ "\x7d"
def stringifyItems : List JVal → String
  | [] => ""
  | [x] => JVal.stringify x
  | x :: y :: xs => JVal.stringify x ++ "," ++ stringifyItems (y :: xs)
def stringifyFields : List (String × JVal) → String
  | [] => ""
  | [(k, v)] => "\x22" ++ k ++ "\x22:" ++ JVal.stringify v
  | (k, v) :: f :: fs =>
      "\x22" ++ k ++ "\x22:" ++ JVal.stringify v ++ "," ++ stringifyFields (f :: fs)
end

/-- Property access on a non-null JVal, modelling obj[prop] in JS: object
fields by key, array elements by numeric index (plus the length property),
string characters by index (plus the length property, via auto-boxing);
property access on numbers and booleans yields undefined, modelled as none. -/
def getProp : JVal → String → Option JVal
  | .obj fs, k => fs.lookup k
  | .arr xs, k =>
      if k = "length" then some (.num xs.length)
      else match k.toNat? with
        | some i => xs.get? i
        | none => none
  | .str s, k =>
      if k = "length" then some (.num s.length)
      else match k.toNat? with
        | some i => (s.data.get? i).map fun c => .str (String.mk [c])
        | none => none
  | _, _ => none

/-- Property access obj1[prop] as deep_compare performs it, through a
possibly-undefined base.  In JS, reading any property of undefined or of
null throws a TypeError (which then escapes the fuzz target uncaught);
every other base yields the property value or undefined (none). -/
def jsGetProp : Option JVal → String → Except String (Option JVal)
  | none, _ => .error "TypeError: cannot read properties of undefined"
  | some .null, _ => .error "TypeError: cannot read properties of null"
  | some v, k => .ok (getProp v k)

/-- Strict equality (===) between a possibly-undefined value and a primitive,
as used by deep_compare on its non-object branch. -/
def strictEqPrim : Option JVal → JVal → Bool
  | some .null, .null => true
  | some (.num a), .num b => a == b
  | some (.str a), .str b => a == b
  | some (.bool a), .bool b => a == b
  | _, _ => false

/-- Diff container produced by deep_compare: either a differing primitive
leaf, or an object/array node holding the differing sub-entries. -/
inductive DiffV where
  | leaf (v : JVal)
  | node (isArr : Bool) (entries : List (String × DiffV))

/-- A diff container that deep_compare deletes again: an object with no own
properties, or an array with only its length property (no index entries). -/
def isEmptyDiff : DiffV → Bool
  | .leaf _ => false
  | .node _ es => es.isEmpty

/- Embedding of deep_compare from src/rtt-module.js.  It walks the own
properties of the second value; object-typed properties (typeof object:
plain objects, arrays, and null) recurse and are dropped when the sub-diff
is empty, primitive properties are kept when they are not strictly equal to
the first value's property.  The function is partial exactly where the JS
code throws a TypeError (the exception escapes the fuzz target uncaught):
every property handled while the first value is undefined or null throws on
the obj1[prop] access (both the recursive-call argument and the !== operand
evaluate it), and every null-valued property of the second value throws
because typeof null is object, so the code recurses and the recursive
call's Object.getOwnPropertyNames(null) throws.  A second-value object with
no own properties iterates nothing and so never accesses obj1.  Arrays
additionally carry their length own property, iterated after the index
properties: its obj1[length] access can throw, but a differing length only
overwrites the diff array's length property in JS and never appears among
the enumerable diff keys, so the comparison result is dropped. -/
mutual
def dcList (o1 : Option JVal) (i : Nat) :
    List JVal → Except String (List (String × DiffV))
  | [] => .ok []
  | v :: rest =>
      match dcEntry o1 (toString i) v with
      | .error e => .error e
      | .ok d =>
          match dcList o1 (i + 1) rest with
          | .error e => .error e
          | .ok ds => .ok (d ++ ds)
def dcFields (o1 : Option JVal) :
    List (String × JVal) → Except String (List (String × DiffV))
  | [] => .ok []
  | (k, v) :: rest =>
      match dcEntry o1 k v with
      | .error e => .error e
      | .ok d =>
          match dcFields o1 rest with
          | .error e => .error e
          | .ok ds => .ok (d ++ ds)
def dcEntry (o1 : Option JVal) (k : String) (v : JVal) :
    Except String (List (String × DiffV)) :=
  match v with
  | .obj fs =>
      match jsGetProp o1 k with
      | .error e => .error e
      | .ok sub =>
          match dcFields sub fs with
          | .error e => .error e
          | .ok es =>
              .ok (if isEmptyDiff (.node false es) then []
                   else [(k, .node false es)])
  | .arr xs =>
      match jsGetProp o1 k with
      | .error e => .error e
      | .ok sub =>
          match dcList sub 0 xs with
          | .error e => .error e
          | .ok es =>
              match jsGetProp sub "length" with
              | .error e => .error e
              | .ok _ =>
                  .ok (if isEmptyDiff (.node true es) then []
                       else [(k, .node true es)])
  | .null =>
      match jsGetProp o1 k with
      | .error e => .error e
      | .ok _ => .error "TypeError: Object.getOwnPropertyNames called on null"
  | v =>
      match jsGetProp o1 k with
      | .error e => .error e
      | .ok sub => .ok (if strictEqPrim sub v then [] else [(k, .leaf v)])
end

def deep_compare (o1 : Option JVal) (o2 : JVal) : Except String DiffV :=
  match o2 with
  | .arr xs =>
      match dcList o1 0 xs with
      | .error e => .error e
      | .ok es =>
          match jsGetProp o1 "length" with
          | .error e => .error e
          | .ok _ => .ok (.node true es)
  | .obj fs =>
      match dcFields o1 fs with
      | .error e => .error e
      | .ok es => .ok (.node false es)
  | .null => .error "TypeError: Object.getOwnPropertyNames called on null"
  | _ => .ok (.node false [])

/- Embedding of object_keypaths from src/rtt-module.js: flatten a diff into
dotted key paths.  Plain-object children recurse with an extended path;
arrays and primitive leaves are reported as a single path. -/
mutual
def object_keypaths : DiffV → String → List String
  | .leaf _, _ => []
  | .node _ es, pre => keypathsList es pre
def keypathsList : List (String × DiffV) → String → List String
  | [], _ => []
  | (k, c) :: rest, pre => keypathEntry k c pre ++ keypathsList rest pre
def keypathEntry (k : String) (c : DiffV) (pre : String) : List String :=
  match c with
  | .node false es => keypathsList es (pre ++ k ++ ".")
  | _ => [pre ++ k]
end

/-- Game state, as required by the driver: an active role (or a sentinel),
a status field (state.state in JS), a numeric seed, and arbitrary further
fields. -/
structure GameState where
  active : String
  status : String
  seed : Int
  rest : List (String × JVal)

/-- The state viewed as the JSON value that JSON.stringify(ctx.state) and
deep_compare operate on. -/
def GameState.toJVal (s : GameState) : JVal :=
  .obj (("active", .str s.active) :: ("state", .str s.status)
        :: ("seed", .num s.seed) :: s.rest)

/-- Argument-domain descriptor attached to an action name in a view:
a boolean, a number, or an enumerated sequence of values. -/
inductive ADesc where
  | bool (b : Bool)
  | num (n : Int)
  | arr (xs : List JVal)

/-- A view: an optional prompt and an optional mapping from action names to
argument-domain descriptors. -/
structure View where
  prompt : Option String
  actions : Option (List (String × ADesc))

def emptyView : View := ⟨none, none⟩

/-- Modelled from the JS global isNaN builtin, restricted to the value forms
of JVal: numbers and booleans coerce to numbers, strings are numeric when
they consist of decimal digits (simplification of JS number parsing), null
coerces to 0; objects and general arrays are treated as non-numeric. -/
def jsIsNaN : JVal → Bool
  | .num _ => false
  | .bool _ => false
  | .null => false
  | .str s => !(s.data.all Char.isDigit)
  | .arr _ => true
  | .obj _ => true

/-- Modelled from the spec: the Input Cursor over the fuzzer's byte buffer
(the external jazzer FuzzedDataProvider).  Decoding is a pure function of the
remaining bytes and the requested shape; draws consume a fixed-width prefix
(up to 8 bytes) and never fail on exhaustion. -/
structure FDP where
  bytes : List Nat

def FDP.remainingBytes (d : FDP) : Nat := d.bytes.length

def FDP.consumeIntegralInRange (d : FDP) (lo hi : Nat) : Nat × FDP :=
  let k := min 8 d.bytes.length
  let x := (d.bytes.take k).foldl (fun acc b => acc * 256 + b % 256) 0
  (lo + x % (hi + 1 - lo), ⟨d.bytes.drop k⟩)

def FDP.pickValue (d : FDP) (xs : List α) (dflt : α) : α × FDP :=
  let p := d.consumeIntegralInRange 0 (xs.length - 1)
  (xs.getD p.1 dflt, p.2)

/-- Driver configuration: the environment-variable switches of
src/rtt-module.js gathered into one record. -/
structure Config where
  NO_ASSERT : Bool := false
  NO_CRASH : Bool := false
  NO_SCHEMA : Bool := false
  NO_UNDO : Bool := false
  MAX_STEPS : Int := 10000
  TIMEOUT : Nat := 250

/-- The scenario declaration of a rules module: either a flat list or a
grouped mapping whose values are flattened. -/
inductive Scenarios where
  | list (xs : List String)
  | grouped (gs : List (String × List String))

def Scenarios.flat : Scenarios → List String
  | .list xs => xs
  | .grouped gs => gs.foldr (fun g acc => g.2 ++ acc) []

/-- The Rules Adapter contract.  view may raise (error) and may return a
mutated state (modelling in-place mutation by the adapter); action may raise;
assert_state and the view schema are optional capabilities. -/
structure Rules where
  roles : List String
  scenarios : Scenarios
  setup : Nat → String → List (String × JVal) → GameState
  view : GameState → String → Except String (View × GameState)
  action : GameState → String → String → Option JVal → Except String GameState
  assert_state : Option (GameState → Except String Unit)
  viewSchema : Option (View → Bool)

/-- One replay entry: acting role (none for the setup entry), action name,
and the chosen argument when the descriptor was an enumerated sequence. -/
structure ReplayEntry where
  role : Option String
  action : String
  arg : Option JVal

/-- The per-run game context of the driver. -/
structure Ctx where
  dataBytes : List Nat
  scenario : String
  options : List (String × JVal)
  players : List (String × String)
  replay : List ReplayEntry
  state : GameState
  active : String
  step : Nat
  view : View
  acount : Nat

/-- Violation taxonomy, mirroring the custom Error classes of
src/rtt-module.js. -/
inductive Violation where
  | RulesCrashError (msg : String)
  | MaxStepError
  | TimeoutError
  | SchemaValidationError
  | ViewStateMutationError (diffKeys : List String)
  | UnknownStateError (prompt : String)
  | NoMoreActionsError (msg : Option String)
  | InvalidActionArgument (action : String)
  | UndoActiveError
  | UndoSeedError
  | RulesAssertError (msg : String)
deriving DecidableEq

/-- Terminal classification of a run.  uncaught is an exception that is not
one of the classified violations and escapes the fuzz target (the TypeError
raised inside deep_compare, whose call site sits outside every try block):
it never reaches log_crash. -/
inductive Outcome where
  | silent
  | completed
  | viol (v : Violation)
  | uncaught (e : String)
  | fuelOut
deriving DecidableEq

/-- Result of one iteration of the drive loop: continue with an updated
context and cursor, or stop with a terminal classification. -/
inductive StepRes where
  | cont (ctx : Ctx) (d : FDP)
  | stop (o : Outcome) (ctx : Ctx) (d : FDP)

def emitted : StepRes → Option Violation
  | .stop (.viol v) _ _ => some v
  | _ => none

def ctxOf : StepRes → Ctx
  | .cont c _ => c
  | .stop _ c _ => c

/-- An action is stripped when its descriptor is false, 0, or has length 0
(an empty enumerated sequence); numbers and booleans have no length in JS. -/
def isDisabledDesc : ADesc → Bool
  | .bool b => b == false
  | .num n => n == 0
  | .arr xs => xs.isEmpty

/-- The action-filtering step: optionally delete the undo action, then
delete every disabled action.  Mirrors the two delete passes of the loop. -/
def filterActions (cfg : Config) (acts : List (String × ADesc)) :
    List (String × ADesc) :=
  let acts := if cfg.NO_UNDO then acts.filter (fun p => p.1 ≠ "undo") else acts
  acts.filter (fun p => !isDisabledDesc p.2)

/-- The tail of an iteration after the undo checks: the optional
assert_state capability, then the step-counter increment and the next
iteration.  Mirrors the end of the while body of fuzz. -/
def afterUndo (R : Rules) (cfg : Config) (ctx : Ctx) (d : FDP) : StepRes :=
  match (if cfg.NO_ASSERT then none else R.assert_state) with
  | some f =>
      match f ctx.state with
      | .error e => .stop (.viol (.RulesAssertError e)) ctx d
      | .ok _ => .cont { ctx with step := ctx.step + 1 } d
  | none => .cont { ctx with step := ctx.step + 1 } d

/-- Apply the chosen action and run the post-conditions: a raised error is a
RulesCrash; when the applied action was undo, the resulting active must be
the acting role or the Both sentinel (otherwise UndoActive), and the
resulting seed must equal the pre-action seed (otherwise UndoSeed).  The
acount field is a ghost counter, not in the source, counting RULES.action
invocations for the replay-length statement. -/
def applyAction (R : Rules) (cfg : Config) (ctx : Ctx) (d : FDP)
    (action : String) (args : Option JVal) (prev_seed : Int) : StepRes :=
  let ctx := { ctx with acount := ctx.acount + 1 }
  match R.action ctx.state ctx.active action args with
  | .error e => .stop (.viol (.RulesCrashError e)) ctx d
  | .ok s' =>
      let ctx := { ctx with state := s' }
      if action = "undo" then
        if s'.active ≠ ctx.active ∧ s'.active ≠ "Both" then
          .stop (.viol .UndoActiveError) ctx d
        else if s'.seed ≠ prev_seed then
          .stop (.viol .UndoSeedError) ctx d
        else afterUndo R cfg ctx d
      else afterUndo R cfg ctx d

/-- Resolve the argument descriptor of the chosen action: an enumerated
sequence is first scanned for NaN entries (InvalidActionArgument), then one
element is picked via the cursor and recorded in the replay; any other
descriptor leads to an undefined argument and a two-element replay entry.
Mirrors the Array.isArray(args) branch of fuzz. -/
def resolveArgs (R : Rules) (cfg : Config) (ctx : Ctx) (d : FDP)
    (action : String) (argsDesc : ADesc) (prev_seed : Int) : StepRes :=
  match argsDesc with
  | .arr xs =>
      if xs.any jsIsNaN then
        .stop (.viol (.InvalidActionArgument action)) ctx d
      else
        let p := d.pickValue xs (.num 0)
        let ctx := { ctx with
          replay := ctx.replay ++ [⟨some ctx.active, action, some p.1⟩] }
        applyAction R cfg ctx p.2 action (some p.1) prev_seed
  | _ =>
      let ctx := { ctx with
        replay := ctx.replay ++ [⟨some ctx.active, action, none⟩] }
      applyAction R cfg ctx d action none prev_seed

/-- Filter the actions of the view and select one.  The filtering deletes
keys on the very actions object the adapter returned (const actions =
ctx.view.actions), which is modelled by updating ctx.view.actions with the
filtered mapping.  An empty filtered set is the dead-end violation. -/
def selectPhase (R : Rules) (cfg : Config) (ctx : Ctx) (d : FDP)
    (acts : List (String × ADesc)) : StepRes :=
  let facts := filterActions cfg acts
  let ctx := { ctx with view := { ctx.view with actions := some facts } }
  if facts.isEmpty then
    .stop (.viol (.NoMoreActionsError none)) ctx d
  else
    let p := d.pickValue (facts.map Prod.fst) ""
    let argsDesc := (facts.lookup p.1).getD (.bool true)
    let prev_seed := ctx.state.seed
    resolveArgs R cfg ctx p.2 p.1 argsDesc prev_seed

/-- The checks that follow the view call, in source order: positive
step-limit, wall-clock timeout, optional schema validation, view-purity
(comparing the serialized pre-view snapshot against the serialized current
state, reporting the key paths of the diff computed by deep_compare — or,
when deep_compare throws its TypeError, ending the run with that uncaught
exception, since its call site sits outside every try block), normal
game-over termination, unknown-state prompt, and action availability.  The
stack-harvesting re-invocation of view on the frozen state inside the
mutation branch only feeds the error report and is not modelled. -/
def postViewChecks (R : Rules) (cfg : Config) (timedOut : Bool)
    (state_freeze : JVal) (ctx : Ctx) (d : FDP) : StepRes :=
  if 0 < cfg.MAX_STEPS ∧ cfg.MAX_STEPS < (ctx.step : Int) then
    .stop (.viol .MaxStepError) ctx d
  else if timedOut then
    .stop (.viol .TimeoutError) ctx d
  else if (match (if cfg.NO_SCHEMA then none else R.viewSchema) with
           | some p => !p ctx.view
           | none => false) then
    .stop (.viol .SchemaValidationError) ctx d
  else if JVal.stringify state_freeze ≠ JVal.stringify ctx.state.toJVal then
    match deep_compare (some state_freeze) ctx.state.toJVal with
    | .error e => .stop (.uncaught e) ctx d
    | .ok dv =>
        .stop (.viol (.ViewStateMutationError (object_keypaths dv ""))) ctx d
  else if ctx.state.status = "game_over" then
    .stop .completed ctx d
  else if (match ctx.view.prompt with
           | some p => p.startsWith "Unknown state:"
           | none => false) then
    .stop (.viol (.UnknownStateError (ctx.view.prompt.getD ""))) ctx d
  else
    match ctx.view.actions with
    | none => .stop (.viol (.NoMoreActionsError (some "No actions defined"))) ctx d
    | some acts => selectPhase R cfg ctx d acts

/-- The pre-view snapshot and the view call of an iteration: a raised error
is a RulesCrash with ctx.view still the empty object; otherwise the view and
the (possibly mutated) state are stored and the post-view checks run. -/
def viewPhase (R : Rules) (cfg : Config) (timedOut : Bool) (ctx : Ctx)
    (d : FDP) : StepRes :=
  let state_freeze := ctx.state.toJVal
  match R.view ctx.state ctx.active with
  | .error e => .stop (.viol (.RulesCrashError e)) ctx d
  | .ok vs =>
      let ctx := { ctx with view := vs.1, state := vs.2 }
      postViewChecks R cfg timedOut state_freeze ctx d

/-- One iteration of the drive loop: entropy check, negative step-limit
check, acting-role resolution (a pseudorandom role when active is the Both
or All sentinel), then the view phase and the post-view checks. -/
def stepIter (R : Rules) (cfg : Config) (timedOut : Bool) (ctx : Ctx)
    (d : FDP) : StepRes :=
  if d.remainingBytes < 16 then .stop .silent ctx d
  else if cfg.MAX_STEPS < 0 ∧ -cfg.MAX_STEPS < (ctx.step : Int) then
    .stop .silent ctx d
  else
    let p := if ctx.state.active = "Both" ∨ ctx.state.active = "All"
             then d.pickValue R.roles "" else (ctx.state.active, d)
    viewPhase R cfg timedOut { ctx with active := p.1, view := emptyView } p.2

/-- The drive loop: fuel-indexed iteration of stepIter.  Each iteration
reads the clock (Date.now()) to decide the timeout condition; i counts the
clock readings. -/
def runLoop (R : Rules) (cfg : Config) (clock : Nat → Nat) (deadline : Nat) :
    Nat → Nat → Ctx → FDP → Outcome × Ctx × FDP
  | 0, _, ctx, d => (.fuelOut, ctx, d)
  | fuel + 1, i, ctx, d =>
      let timedOut := (cfg.TIMEOUT != 0) && decide (deadline < clock i)
      match stepIter R cfg timedOut ctx d with
      | .cont ctx' d' => runLoop R cfg clock deadline fuel (i + 1) ctx' d'
      | .stop o ctx' d' => (o, ctx', d')

/-- File keys of the crash reporter: the artifact JSON file
(crash-(hash).json) and the raw-input file (crash-(hash)); the two name
families are modelled as structurally distinct keys, and the sha1 content
hash is modelled as the hashed content itself. -/
inductive FKey where
  | artifact (gameHash : String)
  | rawInput (dataHash : String)
deriving DecidableEq

def FS := List (FKey × String)

def fsFind : FS → FKey → Option String
  | [], _ => none
  | (k, v) :: rest, key => if k = key then some v else fsFind rest key

/-- Content hash of the raw input bytes (sha1 modelled as the serialized
bytes themselves). -/
def dataKey (bytes : List Nat) : String :=
  String.intercalate "," (bytes.map toString)

def replayEntryJVal : ReplayEntry → JVal
  | ⟨r, a, some v⟩ => .arr [(match r with | some s => .str s | none => .null), .str a, v]
  | ⟨r, a, none⟩ => .arr [(match r with | some s => .str s | none => .null), .str a]

/-- The persisted CrashArtifact: setup parameters, players, final state and
full replay, serialized as in log_crash of src/rtt-module.js. -/
def gameJson (ctx : Ctx) : String :=
  JVal.stringify (.obj [
    ("setup", .obj [("scenario", .str ctx.scenario),
                    ("player_count", .num ctx.players.length),
                    ("options", .obj ctx.options)]),
    ("players", .arr (ctx.players.map fun pl =>
       .obj [("role", .str pl.1), ("name", .str pl.2)])),
    ("state", ctx.state.toJVal),
    ("replay", .arr (ctx.replay.map replayEntryJVal))])

/-- Embedding of log_crash: the artifact file is written only when no file
with its key exists; in crash-suppression mode the raw input bytes are
additionally saved under their own key. -/
def log_crash (cfg : Config) (ctx : Ctx) (fs : FS) : FS :=
  let game := gameJson ctx
  match fsFind fs (.artifact game) with
  | none =>
      let fs1 : FS := (FKey.artifact game, game) :: fs
      if cfg.NO_CRASH then
        (FKey.rawInput (dataKey ctx.dataBytes), dataKey ctx.dataBytes) :: fs1
      else fs1
  | some _ => fs

/-- The initial draws of a run: the seed from a fixed wide range and the
scenario pick from the flattened scenario set. -/
def initDraws (R : Rules) (bytes : List Nat) : Nat × String × FDP :=
  let d : FDP := ⟨bytes⟩
  let ps := d.consumeIntegralInRange 1 (2 ^ 35 - 31)
  let pc := ps.2.pickValue R.scenarios.flat ""
  (ps.1, pc.1, pc.2)

/-- Result of one driver invocation: terminal classification, final replay,
number of RULES.action invocations, and the crash-artifact store. -/
structure RunResult where
  outcome : Outcome
  replay : List ReplayEntry
  acount : Nat
  fs : FS

/-- The driver's single entry point, the fuzz function of src/rtt-module.js:
check the entropy threshold, draw seed and scenario, record the setup replay
entry, call setup, and run the drive loop; a violation outcome is handed to
the crash reporter. -/
def fuzz (R : Rules) (cfg : Config) (clock : Nat → Nat) (bytes : List Nat)
    (fs : FS) : RunResult :=
  let d : FDP := ⟨bytes⟩
  if d.remainingBytes < 16 then ⟨.silent, [], 0, fs⟩
  else
    let iv := initDraws R bytes
    let deadline := if cfg.TIMEOUT ≠ 0 then clock 0 + cfg.TIMEOUT else 0
    let setupEntry : ReplayEntry :=
      ⟨none, ".setup", some (.arr [.num iv.1, .str iv.2.1, .obj []])⟩
    let ctx : Ctx := {
      dataBytes := bytes
      scenario := iv.2.1
      options := []
      players := R.roles.map fun r => (r, "rtt-fuzzer")
      replay := [setupEntry]
      state := R.setup iv.1 iv.2.1 []
      active := ""
      step := 0
      view := emptyView
      acount := 0 }
    let res := runLoop R cfg clock deadline (bytes.length + 1) 1 ctx iv.2.2
    let fs' := match res.1 with
      | .viol _ => log_crash cfg res.2.1 fs
      | _ => fs
    ⟨res.1, res.2.1.replay, res.2.1.acount, fs'⟩

/-- A minimal well-behaved adapter: two roles, one scenario, and a pass
action that immediately ends the game. -/
def passRules : Rules where
  roles := ["A", "B"]
  scenarios := .list ["S"]
  setup := fun seed _ _ => ⟨"A", "playing", (seed : Int), []⟩
  view := fun s _ => .ok (⟨none, some [("pass", .bool true)]⟩, s)
  action := fun s _ _ _ => .ok { s with status := "game_over" }
  assert_state := none
  viewSchema := none

/-- A stub adapter whose view mutates the state it was given (bumps the
seed), used to exercise the view-purity check. -/
def mutRules : Rules where
  roles := ["A"]
  scenarios := .list ["S"]
  setup := fun seed _ _ => ⟨"A", "playing", (seed : Int), []⟩
  view := fun s _ =>
    .ok (⟨none, some [("pass", .bool true)]⟩, { s with seed := s.seed + 1 })
  action := fun s _ _ _ => .ok { s with status := "game_over" }
  assert_state := none
  viewSchema := none

/-- A stub adapter whose undo action both hands the turn to an unrelated
role and changes the seed. -/
def badUndoRules : Rules where
  roles := ["A", "B"]
  scenarios := .list ["S"]
  setup := fun seed _ _ => ⟨"A", "playing", (seed : Int), []⟩
  view := fun s _ => .ok (⟨none, some [("undo", .bool true)]⟩, s)
  action := fun s _ _ _ => .ok { s with active := "C", seed := 999 }
  assert_state := none
  viewSchema := none

/-- A stub adapter whose action result records whether an argument was
passed: seed 100 when called with an argument, 200 when called without. -/
def argProbeRules : Rules where
  roles := ["A"]
  scenarios := .list ["S"]
  setup := fun seed _ _ => ⟨"A", "playing", (seed : Int), []⟩
  view := fun s _ => .ok (⟨none, some [("foo", .num 5)]⟩, s)
  action := fun s _ _ arg =>
    .ok { s with seed := match arg with | some _ => 100 | none => 200 }
  assert_state := none
  viewSchema := none

/-- Configuration with the wall-clock deadline disabled. -/
def cfg0 : Config := { TIMEOUT := 0 }

/-- Configuration with a one-unit wall-clock deadline. -/
def cfgT : Config := { TIMEOUT := 1 }

def bytes48 : List Nat := List.replicate 48 0

/-- A clock that never advances. -/
def clockA : Nat → Nat := fun _ => 0

/-- A clock that advances fast enough to exceed any small deadline. -/
def clockB : Nat → Nat := fun i => i * 1000

def state0 : GameState := ⟨"A", "playing", 1, []⟩

/-- A fresh context for iteration-level statements. -/
def ctx0 : Ctx where
  dataBytes := bytes48
  scenario := "S"
  options := []
  players := [("A", "rtt-fuzzer")]
  replay := [⟨none, ".setup", some (.arr [.num 1, .str "S", .obj []])⟩]
  state := state0
  active := "A"
  step := 0
  view := emptyView
  acount := 0

def d0 : FDP := ⟨List.replicate 32 0⟩

/-- Claim C1 as stated: two independent invocations of the driver on the
same byte buffer (against the same adapter and configuration, but with
possibly different wall clocks) produce identical replays and identical
terminal classification. -/
def claimC1 : Prop :=
  ∀ (R : Rules) (cfg : Config) (c1 c2 : Nat → Nat) (bytes : List Nat) (fs : FS),
    (fuzz R cfg c1 bytes fs).replay = (fuzz R cfg c2 bytes fs).replay ∧
    (fuzz R cfg c1 bytes fs).outcome = (fuzz R cfg c2 bytes fs).outcome

/-- Claim C2 as stated: in every iteration, whenever the state serialized
after the view call differs from the pre-view snapshot the driver emits a
ViewStateMutation violation naming the differing key paths (so in
particular the diff computation returns them), and whenever it is unchanged
no ViewStateMutation violation is emitted. -/
def claimC2 : Prop :=
  ∀ (R : Rules) (cfg : Config) (timedOut : Bool) (preJ : JVal) (ctx : Ctx)
    (d : FDP),
    (JVal.stringify preJ ≠ JVal.stringify ctx.state.toJVal →
      ∃ dv, deep_compare (some preJ) ctx.state.toJVal = .ok dv ∧
        emitted (postViewChecks R cfg timedOut preJ ctx d) =
          some (.ViewStateMutationError (object_keypaths dv ""))) ∧
    (JVal.stringify preJ = JVal.stringify ctx.state.toJVal →
      ∀ ks, emitted (postViewChecks R cfg timedOut preJ ctx d) ≠
        some (.ViewStateMutationError ks))

/-- Claim C3 as stated: after a normally returning undo application the
driver raises UndoActive if the new active is neither the acting role nor
the sentinel, raises UndoSeed if the seed changed, raises neither when undo
preserves both, and never raises either for non-undo actions. -/
def claimC3 : Prop :=
  ∀ (R : Rules) (cfg : Config) (ctx : Ctx) (d : FDP) (args : Option JVal)
    (ps : Int) (s' : GameState),
    R.action ctx.state ctx.active "undo" args = .ok s' →
    ((s'.active ≠ ctx.active ∧ s'.active ≠ "Both") →
      emitted (applyAction R cfg ctx d "undo" args ps) = some .UndoActiveError) ∧
    (s'.seed ≠ ps →
      emitted (applyAction R cfg ctx d "undo" args ps) = some .UndoSeedError) ∧
    (((s'.active = ctx.active ∨ s'.active = "Both") ∧ s'.seed = ps) →
      emitted (applyAction R cfg ctx d "undo" args ps) ≠ some .UndoActiveError ∧
      emitted (applyAction R cfg ctx d "undo" args ps) ≠ some .UndoSeedError) ∧
    (∀ act, act ≠ "undo" →
      emitted (applyAction R cfg ctx d act args ps) ≠ some .UndoActiveError ∧
      emitted (applyAction R cfg ctx d act args ps) ≠ some .UndoSeedError)

/-- Claim C6 as stated: for a scalar argument-domain descriptor the driver
passes the scalar value itself as the action argument, consuming no further
bytes (the cursor handed to the application is unchanged, and the context's
state is unchanged). -/
def claimC6 : Prop :=
  ∀ (R : Rules) (cfg : Config) (ctx : Ctx) (d : FDP) (act : String) (ps : Int)
    (n : Int),
    ∃ ctx' : Ctx, ctx'.state = ctx.state ∧
      resolveArgs R cfg ctx d act (.num n) ps =
        applyAction R cfg ctx' d act (some (.num n)) ps

/-- Claim C10 as stated: the action-filtering step never mutates the View
returned by the adapter; after filtering, the view (including its actions
mapping) is unchanged. -/
def claimC10 : Prop :=
  ∀ (R : Rules) (cfg : Config) (ctx : Ctx) (d : FDP)
    (acts : List (String × ADesc)),
    ctx.view.actions = some acts →
    (ctxOf (selectPhase R cfg ctx d acts)).view = ctx.view

def viewPass : View := ⟨none, some [("pass", .bool true)]⟩

/-- The context as it stands right after a view call that mutated the seed
of state0 to 2. -/
def ctxMut : Ctx := { ctx0 with state := ⟨"A", "playing", 2, []⟩, view := viewPass }

/-- The context as it stands right after a view call that mutated state0 by
adding a null-valued field x: the serializations differ, and deep_compare
recurses into the null property (typeof null is object) and throws. -/
def ctxNull : Ctx :=
  { ctx0 with state := ⟨"A", "playing", 1, [("x", .null)]⟩, view := viewPass }

/-- Fold the crash reporter over a sequence of violations, starting from an
empty artifact store. -/
def runCrashes (cs : List (Config × Ctx)) : FS :=
  cs.foldl (fun fs p => log_crash p.1 p.2 fs) []

/-- The context the driver builds for the all-zero 48-byte buffer against
the pass adapter, right after setup (seed 1, scenario S drawn from the
zero bytes). -/
def ctxI : Ctx where
  dataBytes := bytes48
  scenario := "S"
  options := []
  players := [("A", "rtt-fuzzer"), ("B", "rtt-fuzzer")]
  replay := [⟨none, ".setup", some (.arr [.num 1, .str "S", .obj []])⟩]
  state := ⟨"A", "playing", 1, []⟩
  active := ""
  step := 0
  view := emptyView
  acount := 0

/-- The same run's context after its single pass action ended the game. -/
def ctxII : Ctx where
  dataBytes := bytes48
  scenario := "S"
  options := []
  players := [("A", "rtt-fuzzer"), ("B", "rtt-fuzzer")]
  replay := [⟨none, ".setup", some (.arr [.num 1, .str "S", .obj []])⟩,
             ⟨some "A", "pass", none⟩]
  state := ⟨"A", "game_over", 1, []⟩
  active := "A"
  step := 1
  view := ⟨none, some [("pass", .bool true)]⟩
  acount := 1

/-- The same run's context at the point where a passed deadline stops the
first iteration. -/
def ctxTO : Ctx := { ctxI with active := "A", view := viewPass }

theorem pickValue_fst_mem {α : Type} (d : FDP) (xs : List α) (dflt : α)
    (h : xs ≠ []) : (d.pickValue xs dflt).1 ∈ xs := by
  have hlen : 0 < xs.length := List.length_pos.2 h
  unfold FDP.pickValue FDP.consumeIntegralInRange
  have hlt : 0 + ((d.bytes.take (min 8 d.bytes.length)).foldl
      (fun acc b => acc * 256 + b % 256) 0) % (xs.length - 1 + 1 - 0)
      < xs.length := by
    have h1 : xs.length - 1 + 1 - 0 = xs.length := by omega
    rw [h1]
    have := Nat.mod_lt ((d.bytes.take (min 8 d.bytes.length)).foldl
      (fun acc b => acc * 256 + b % 256) 0) hlen
    omega
  simp only
  rw [List.getD_eq_getElem xs dflt hlt]
  exact List.getElem_mem hlt

theorem nodup_key_eq {β : Type} {l : List (String × β)} {k : String} {a b : β}
    (h : (l.map Prod.fst).Nodup) (ha : (k, a) ∈ l) (hb : (k, b) ∈ l) :
    a = b := by
  induction l with
  | nil => cases ha
  | cons p t ih =>
    rw [List.map_cons, List.nodup_cons] at h
    rcases List.mem_cons.1 ha with ha1 | ha1 <;>
      rcases List.mem_cons.1 hb with hb1 | hb1
    · exact congrArg Prod.snd (ha1.trans hb1.symm)
    · exfalso; apply h.1
      have hp : p.1 = k := by rw [← ha1]
      rw [hp]
      exact List.mem_map.2 ⟨(k, b), hb1, rfl⟩
    · exfalso; apply h.1
      have hp : p.1 = k := by rw [← hb1]
      rw [hp]
      exact List.mem_map.2 ⟨(k, a), ha1, rfl⟩
    · exact ih h.2 ha1 hb1

theorem afterUndo_emits (R : Rules) (cfg : Config) (ctx : Ctx) (d : FDP)
    (v : Violation) (h : emitted (afterUndo R cfg ctx d) = some v) :
    ∃ e, v = .RulesAssertError e := by
  unfold afterUndo at h
  split at h
  · split at h
    · simp [emitted] at h; exact ⟨_, h.symm⟩
    · simp [emitted] at h
  · simp [emitted] at h

theorem applyAction_emits (R : Rules) (cfg : Config) (ctx : Ctx) (d : FDP)
    (act : String) (args : Option JVal) (ps : Int) (v : Violation)
    (h : emitted (applyAction R cfg ctx d act args ps) = some v) :
    (∃ e, v = .RulesCrashError e) ∨
    (act = "undo" ∧ (v = .UndoActiveError ∨ v = .UndoSeedError)) ∨
    (∃ e, v = .RulesAssertError e) := by
  unfold applyAction at h
  dsimp only at h
  cases hact : R.action ctx.state ctx.active act args with
  | error e =>
      rw [hact] at h
      simp only [emitted, Option.some.injEq] at h
      exact Or.inl ⟨e, h.symm⟩
  | ok s' =>
      rw [hact] at h
      dsimp only at h
      by_cases hu : act = "undo"
      · rw [if_pos hu] at h
        by_cases hA : ¬s'.active = ctx.active ∧ ¬s'.active = "Both"
        · rw [if_pos hA] at h
          simp only [emitted, Option.some.injEq] at h
          exact Or.inr (Or.inl ⟨hu, Or.inl h.symm⟩)
        · rw [if_neg hA] at h
          by_cases hS : s'.seed ≠ ps
          · rw [if_pos hS] at h
            simp only [emitted, Option.some.injEq] at h
            exact Or.inr (Or.inl ⟨hu, Or.inr h.symm⟩)
          · rw [if_neg hS] at h
            exact Or.inr (Or.inr (afterUndo_emits _ _ _ _ _ h))
      · rw [if_neg hu] at h
        exact Or.inr (Or.inr (afterUndo_emits _ _ _ _ _ h))

theorem resolveArgs_emits (R : Rules) (cfg : Config) (ctx : Ctx) (d : FDP)
    (act : String) (desc : ADesc) (ps : Int) (v : Violation)
    (h : emitted (resolveArgs R cfg ctx d act desc ps) = some v) :
    v = .InvalidActionArgument act ∨ (∃ e, v = .RulesCrashError e) ∨
    (act = "undo" ∧ (v = .UndoActiveError ∨ v = .UndoSeedError)) ∨
    (∃ e, v = .RulesAssertError e) := by
  unfold resolveArgs at h
  split at h
  · split at h
    · simp [emitted] at h; exact Or.inl h.symm
    · exact Or.inr (applyAction_emits _ _ _ _ _ _ _ _ h)
  · exact Or.inr (applyAction_emits _ _ _ _ _ _ _ _ h)

theorem selectPhase_emits (R : Rules) (cfg : Config) (ctx : Ctx) (d : FDP)
    (acts : List (String × ADesc)) (v : Violation)
    (h : emitted (selectPhase R cfg ctx d acts) = some v) :
    v = .NoMoreActionsError none ∨ (∃ a, v = .InvalidActionArgument a) ∨
    (∃ e, v = .RulesCrashError e) ∨ v = .UndoActiveError ∨
    v = .UndoSeedError ∨ (∃ e, v = .RulesAssertError e) := by
  unfold selectPhase at h
  dsimp only at h
  by_cases he : (filterActions cfg acts).isEmpty = true
  · rw [if_pos he] at h
    simp only [emitted, Option.some.injEq] at h
    exact Or.inl h.symm
  · rw [if_neg he] at h
    rcases resolveArgs_emits _ _ _ _ _ _ _ _ h with h1 | h1 | ⟨_, h1 | h1⟩ | h1
    · exact Or.inr (Or.inl ⟨_, h1⟩)
    · exact Or.inr (Or.inr (Or.inl h1))
    · exact Or.inr (Or.inr (Or.inr (Or.inl h1)))
    · exact Or.inr (Or.inr (Or.inr (Or.inr (Or.inl h1))))
    · exact Or.inr (Or.inr (Or.inr (Or.inr (Or.inr h1))))

theorem afterUndo_cont (R : Rules) (cfg : Config) (ctx : Ctx) (d : FDP)
    (ctx' : Ctx) (d' : FDP) (h : afterUndo R cfg ctx d = .cont ctx' d') :
    ctx' = { ctx with step := ctx.step + 1 } ∧ d' = d := by
  unfold afterUndo at h
  split at h
  · split at h
    · exact StepRes.noConfusion h
    · injection h with h1 h2; exact ⟨h1.symm, h2.symm⟩
  · injection h with h1 h2; exact ⟨h1.symm, h2.symm⟩

theorem afterUndo_stop (R : Rules) (cfg : Config) (ctx : Ctx) (d : FDP)
    (o : Outcome) (ctx' : Ctx) (d' : FDP)
    (h : afterUndo R cfg ctx d = .stop o ctx' d') : ∃ v, o = .viol v := by
  unfold afterUndo at h
  split at h
  · split at h
    · injection h with h1 h2 h3; exact ⟨_, h1.symm⟩
    · exact StepRes.noConfusion h
  · exact StepRes.noConfusion h

theorem applyAction_cont (R : Rules) (cfg : Config) (ctx : Ctx) (d : FDP)
    (act : String) (args : Option JVal) (ps : Int) (ctx' : Ctx) (d' : FDP)
    (h : applyAction R cfg ctx d act args ps = .cont ctx' d') :
    ctx'.replay = ctx.replay ∧ ctx'.acount = ctx.acount + 1 := by
  unfold applyAction at h
  dsimp only at h
  cases hact : R.action ctx.state ctx.active act args with
  | error e => rw [hact] at h; exact StepRes.noConfusion h
  | ok s' =>
      rw [hact] at h
      dsimp only at h
      by_cases hu : act = "undo"
      · rw [if_pos hu] at h
        by_cases hA : ¬s'.active = ctx.active ∧ ¬s'.active = "Both"
        · rw [if_pos hA] at h; exact StepRes.noConfusion h
        · rw [if_neg hA] at h
          by_cases hS : s'.seed ≠ ps
          · rw [if_pos hS] at h; exact StepRes.noConfusion h
          · rw [if_neg hS] at h
            obtain ⟨h1, h2⟩ := afterUndo_cont _ _ _ _ _ _ h
            subst h1; exact ⟨rfl, rfl⟩
      · rw [if_neg hu] at h
        obtain ⟨h1, h2⟩ := afterUndo_cont _ _ _ _ _ _ h
        subst h1; exact ⟨rfl, rfl⟩

theorem applyAction_stop (R : Rules) (cfg : Config) (ctx : Ctx) (d : FDP)
    (act : String) (args : Option JVal) (ps : Int) (o : Outcome) (ctx' : Ctx)
    (d' : FDP) (h : applyAction R cfg ctx d act args ps = .stop o ctx' d') :
    ∃ v, o = .viol v := by
  unfold applyAction at h
  dsimp only at h
  cases hact : R.action ctx.state ctx.active act args with
  | error e =>
      rw [hact] at h; injection h with h1 h2 h3; exact ⟨_, h1.symm⟩
  | ok s' =>
      rw [hact] at h
      dsimp only at h
      by_cases hu : act = "undo"
      · rw [if_pos hu] at h
        by_cases hA : ¬s'.active = ctx.active ∧ ¬s'.active = "Both"
        · rw [if_pos hA] at h; injection h with h1 h2 h3; exact ⟨_, h1.symm⟩
        · rw [if_neg hA] at h
          by_cases hS : s'.seed ≠ ps
          · rw [if_pos hS] at h; injection h with h1 h2 h3; exact ⟨_, h1.symm⟩
          · rw [if_neg hS] at h; exact afterUndo_stop _ _ _ _ _ _ _ h
      · rw [if_neg hu] at h; exact afterUndo_stop _ _ _ _ _ _ _ h

theorem resolveArgs_cont (R : Rules) (cfg : Config) (ctx : Ctx) (d : FDP)
    (act : String) (desc : ADesc) (ps : Int) (ctx' : Ctx) (d' : FDP)
    (h : resolveArgs R cfg ctx d act desc ps = .cont ctx' d') :
    (∃ e, ctx'.replay = ctx.replay ++ [e]) ∧ ctx'.acount = ctx.acount + 1 := by
  unfold resolveArgs at h
  cases desc with
  | arr xs =>
      dsimp only at h
      by_cases hn : xs.any jsIsNaN = true
      · rw [if_pos hn] at h; exact StepRes.noConfusion h
      · rw [if_neg hn] at h
        obtain ⟨h1, h2⟩ := applyAction_cont _ _ _ _ _ _ _ _ _ h
        exact ⟨⟨_, h1⟩, h2⟩
  | bool b =>
      dsimp only at h
      obtain ⟨h1, h2⟩ := applyAction_cont _ _ _ _ _ _ _ _ _ h
      exact ⟨⟨_, h1⟩, h2⟩
  | num n =>
      dsimp only at h
      obtain ⟨h1, h2⟩ := applyAction_cont _ _ _ _ _ _ _ _ _ h
      exact ⟨⟨_, h1⟩, h2⟩

theorem resolveArgs_stop (R : Rules) (cfg : Config) (ctx : Ctx) (d : FDP)
    (act : String) (desc : ADesc) (ps : Int) (o : Outcome) (ctx' : Ctx)
    (d' : FDP) (h : resolveArgs R cfg ctx d act desc ps = .stop o ctx' d') :
    ∃ v, o = .viol v := by
  unfold resolveArgs at h
  cases desc with
  | arr xs =>
      dsimp only at h
      by_cases hn : xs.any jsIsNaN = true
      · rw [if_pos hn] at h; injection h with h1 h2 h3; exact ⟨_, h1.symm⟩
      · rw [if_neg hn] at h; exact applyAction_stop _ _ _ _ _ _ _ _ _ _ h
  | bool b => exact applyAction_stop _ _ _ _ _ _ _ _ _ _ h
  | num n => exact applyAction_stop _ _ _ _ _ _ _ _ _ _ h

theorem selectPhase_cont (R : Rules) (cfg : Config) (ctx : Ctx) (d : FDP)
    (acts : List (String × ADesc)) (ctx' : Ctx) (d' : FDP)
    (h : selectPhase R cfg ctx d acts = .cont ctx' d') :
    (∃ e, ctx'.replay = ctx.replay ++ [e]) ∧ ctx'.acount = ctx.acount + 1 := by
  unfold selectPhase at h
  dsimp only at h
  by_cases he : (filterActions cfg acts).isEmpty = true
  · rw [if_pos he] at h; exact StepRes.noConfusion h
  · rw [if_neg he] at h
    obtain ⟨⟨e, h1⟩, h2⟩ := resolveArgs_cont _ _ _ _ _ _ _ _ _ h
    exact ⟨⟨e, h1⟩, h2⟩

theorem selectPhase_stop (R : Rules) (cfg : Config) (ctx : Ctx) (d : FDP)
    (acts : List (String × ADesc)) (o : Outcome) (ctx' : Ctx) (d' : FDP)
    (h : selectPhase R cfg ctx d acts = .stop o ctx' d') : ∃ v, o = .viol v := by
  unfold selectPhase at h
  dsimp only at h
  by_cases he : (filterActions cfg acts).isEmpty = true
  · rw [if_pos he] at h; injection h with h1 h2 h3; exact ⟨_, h1.symm⟩
  · rw [if_neg he] at h
    exact resolveArgs_stop _ _ _ _ _ _ _ _ _ _ h

theorem postViewChecks_cont (R : Rules) (cfg : Config) (t : Bool)
    (pre : JVal) (ctx : Ctx) (d : FDP) (ctx' : Ctx) (d' : FDP)
    (h : postViewChecks R cfg t pre ctx d = .cont ctx' d') :
    (∃ e, ctx'.replay = ctx.replay ++ [e]) ∧ ctx'.acount = ctx.acount + 1 := by
  unfold postViewChecks at h
  by_cases h1 : 0 < cfg.MAX_STEPS ∧ cfg.MAX_STEPS < (ctx.step : Int)
  · rw [if_pos h1] at h; exact StepRes.noConfusion h
  · rw [if_neg h1] at h
    by_cases h2 : t = true
    · rw [if_pos h2] at h; exact StepRes.noConfusion h
    · rw [if_neg h2] at h
      by_cases h3 : (match (if cfg.NO_SCHEMA then none else R.viewSchema) with
                     | some p => !p ctx.view
                     | none => false) = true
      · rw [if_pos h3] at h; exact StepRes.noConfusion h
      · rw [if_neg h3] at h
        by_cases h4 : JVal.stringify pre ≠ JVal.stringify ctx.state.toJVal
        · rw [if_pos h4] at h
          cases hdc : deep_compare (some pre) ctx.state.toJVal with
          | error e => rw [hdc] at h; exact StepRes.noConfusion h
          | ok dv => rw [hdc] at h; exact StepRes.noConfusion h
        · rw [if_neg h4] at h
          by_cases h5 : ctx.state.status = "game_over"
          · rw [if_pos h5] at h; exact StepRes.noConfusion h
          · rw [if_neg h5] at h
            by_cases h6 : (match ctx.view.prompt with
                           | some p => p.startsWith "Unknown state:"
                           | none => false) = true
            · rw [if_pos h6] at h; exact StepRes.noConfusion h
            · rw [if_neg h6] at h
              cases hacts : ctx.view.actions with
              | none => rw [hacts] at h; exact StepRes.noConfusion h
              | some acts =>
                  rw [hacts] at h
                  exact selectPhase_cont _ _ _ _ _ _ _ h

theorem postViewChecks_stop_completed (R : Rules) (cfg : Config) (t : Bool)
    (pre : JVal) (ctx : Ctx) (d : FDP) (ctx' : Ctx) (d' : FDP)
    (h : postViewChecks R cfg t pre ctx d = .stop .completed ctx' d') :
    ctx' = ctx ∧ d' = d := by
  unfold postViewChecks at h
  by_cases h1 : 0 < cfg.MAX_STEPS ∧ cfg.MAX_STEPS < (ctx.step : Int)
  · rw [if_pos h1] at h; injection h with h1 h2 h3; exact Outcome.noConfusion h1
  · rw [if_neg h1] at h
    by_cases h2 : t = true
    · rw [if_pos h2] at h; injection h with h1 h2 h3
      exact Outcome.noConfusion h1
    · rw [if_neg h2] at h
      by_cases h3 : (match (if cfg.NO_SCHEMA then none else R.viewSchema) with
                     | some p => !p ctx.view
                     | none => false) = true
      · rw [if_pos h3] at h; injection h with h1 h2 h3
        exact Outcome.noConfusion h1
      · rw [if_neg h3] at h
        by_cases h4 : JVal.stringify pre ≠ JVal.stringify ctx.state.toJVal
        · rw [if_pos h4] at h
          cases hdc : deep_compare (some pre) ctx.state.toJVal with
          | error e =>
              rw [hdc] at h; injection h with h1 h2 h3
              exact Outcome.noConfusion h1
          | ok dv =>
              rw [hdc] at h; injection h with h1 h2 h3
              exact Outcome.noConfusion h1
        · rw [if_neg h4] at h
          by_cases h5 : ctx.state.status = "game_over"
          · rw [if_pos h5] at h; injection h with h1 h2 h3
            exact ⟨h2.symm, h3.symm⟩
          · rw [if_neg h5] at h
            by_cases h6 : (match ctx.view.prompt with
                           | some p => p.startsWith "Unknown state:"
                           | none => false) = true
            · rw [if_pos h6] at h; injection h with h1 h2 h3
              exact Outcome.noConfusion h1
            · rw [if_neg h6] at h
              cases hacts : ctx.view.actions with
              | none =>
                  rw [hacts] at h; injection h with h1 h2 h3
                  exact Outcome.noConfusion h1
              | some acts =>
                  rw [hacts] at h
                  obtain ⟨v, hv⟩ := selectPhase_stop _ _ _ _ _ _ _ _ h
                  exact Outcome.noConfusion hv

theorem viewPhase_cont (R : Rules) (cfg : Config) (t : Bool) (ctx : Ctx)
    (d : FDP) (ctx' : Ctx) (d' : FDP)
    (h : viewPhase R cfg t ctx d = .cont ctx' d') :
    (∃ e, ctx'.replay = ctx.replay ++ [e]) ∧ ctx'.acount = ctx.acount + 1 := by
  unfold viewPhase at h
  dsimp only at h
  cases hv : R.view ctx.state ctx.active with
  | error e => rw [hv] at h; exact StepRes.noConfusion h
  | ok vs =>
      rw [hv] at h
      dsimp only at h
      obtain ⟨⟨e, h1⟩, h2⟩ := postViewChecks_cont _ _ _ _ _ _ _ _ h
      exact ⟨⟨e, h1⟩, h2⟩

theorem viewPhase_stop_completed (R : Rules) (cfg : Config) (t : Bool)
    (ctx : Ctx) (d : FDP) (ctx' : Ctx) (d' : FDP)
    (h : viewPhase R cfg t ctx d = .stop .completed ctx' d') :
    ctx'.replay = ctx.replay ∧ ctx'.acount = ctx.acount := by
  unfold viewPhase at h
  dsimp only at h
  cases hv : R.view ctx.state ctx.active with
  | error e => rw [hv] at h; injection h with h1 h2 h3; exact Outcome.noConfusion h1
  | ok vs =>
      rw [hv] at h
      dsimp only at h
      obtain ⟨h1, h2⟩ := postViewChecks_stop_completed _ _ _ _ _ _ _ _ h
      subst h1; exact ⟨rfl, rfl⟩

theorem stepIter_cont (R : Rules) (cfg : Config) (t : Bool) (ctx : Ctx)
    (d : FDP) (ctx' : Ctx) (d' : FDP)
    (h : stepIter R cfg t ctx d = .cont ctx' d') :
    (∃ e, ctx'.replay = ctx.replay ++ [e]) ∧ ctx'.acount = ctx.acount + 1 := by
  unfold stepIter at h
  split at h
  · exact StepRes.noConfusion h
  · split at h
    · exact StepRes.noConfusion h
    · dsimp only at h
      obtain ⟨⟨e, h1⟩, h2⟩ := viewPhase_cont _ _ _ _ _ _ _ h
      exact ⟨⟨e, h1⟩, h2⟩

theorem stepIter_stop_completed (R : Rules) (cfg : Config) (t : Bool)
    (ctx : Ctx) (d : FDP) (ctx' : Ctx) (d' : FDP)
    (h : stepIter R cfg t ctx d = .stop .completed ctx' d') :
    ctx'.replay = ctx.replay ∧ ctx'.acount = ctx.acount := by
  unfold stepIter at h
  split at h
  · injection h with h1 h2 h3; exact Outcome.noConfusion h1
  · split at h
    · injection h with h1 h2 h3; exact Outcome.noConfusion h1
    · dsimp only at h
      obtain ⟨h1, h2⟩ := viewPhase_stop_completed _ _ _ _ _ _ _ h
      exact ⟨h1, h2⟩

theorem runLoop_completed (R : Rules) (cfg : Config) (clock : Nat → Nat)
    (dl : Nat) : ∀ (fuel i : Nat) (ctx : Ctx) (d : FDP),
    ctx.replay ≠ [] →
    (runLoop R cfg clock dl fuel i ctx d).1 = .completed →
    (runLoop R cfg clock dl fuel i ctx d).2.1.replay.length + ctx.acount
        = ctx.replay.length + (runLoop R cfg clock dl fuel i ctx d).2.1.acount ∧
    (runLoop R cfg clock dl fuel i ctx d).2.1.replay.head? = ctx.replay.head? := by
  intro fuel
  induction fuel with
  | zero =>
      intro i ctx d hne h
      simp only [runLoop] at h
      exact Outcome.noConfusion h
  | succ n ih =>
      intro i ctx d hne h
      rw [runLoop] at h ⊢
      cases hs : stepIter R cfg ((cfg.TIMEOUT != 0) && decide (dl < clock i))
          ctx d with
      | cont ctx2 d2 =>
          rw [hs] at h
          dsimp only at h ⊢
          obtain ⟨⟨e, he⟩, ha⟩ := stepIter_cont _ _ _ _ _ _ _ hs
          have hne2 : ctx2.replay ≠ [] := by
            rw [he]; exact fun hx => by simp at hx
          obtain ⟨ihl, ihh⟩ := ih (i + 1) ctx2 d2 hne2 h
          constructor
          · rw [he] at ihl
            simp only [List.length_append, List.length_cons, List.length_nil] at ihl
            omega
          · rw [ihh, he]
            cases hr : ctx.replay with
            | nil => exact absurd hr hne
            | cons a t => simp
      | stop o ctx2 d2 =>
          rw [hs] at h
          dsimp only at h ⊢
          subst h
          obtain ⟨h1, h2⟩ := stepIter_stop_completed _ _ _ _ _ _ _ hs
          rw [h1, h2]
          exact ⟨by omega, rfl⟩

theorem runLoop_clock_free (R : Rules) (cfg : Config) (c1 c2 : Nat → Nat)
    (h : cfg.TIMEOUT = 0) : ∀ (fuel i j : Nat) (dl1 dl2 : Nat) (ctx : Ctx)
    (d : FDP),
    runLoop R cfg c1 dl1 fuel i ctx d = runLoop R cfg c2 dl2 fuel j ctx d := by
  intro fuel
  induction fuel with
  | zero => intro i j dl1 dl2 ctx d; rfl
  | succ n ih =>
      intro i j dl1 dl2 ctx d
      rw [runLoop, runLoop]
      have ht : ∀ (c : Nat → Nat) (k dl : Nat),
          ((cfg.TIMEOUT != 0) && decide (dl < c k)) = false := by
        intro c k dl; rw [h]; rfl
      rw [ht c1 i dl1, ht c2 j dl2]
      cases hs : stepIter R cfg false ctx d with
      | cont ctx2 d2 => exact ih (i + 1) (j + 1) dl1 dl2 ctx2 d2
      | stop o ctx2 d2 => rfl

theorem afterUndo_view (R : Rules) (cfg : Config) (ctx : Ctx) (d : FDP) :
    (ctxOf (afterUndo R cfg ctx d)).view = ctx.view := by
  unfold afterUndo
  split
  · split
    · rfl
    · rfl
  · rfl

theorem applyAction_view (R : Rules) (cfg : Config) (ctx : Ctx) (d : FDP)
    (act : String) (args : Option JVal) (ps : Int) :
    (ctxOf (applyAction R cfg ctx d act args ps)).view = ctx.view := by
  unfold applyAction
  dsimp only
  cases R.action ctx.state ctx.active act args with
  | error e => rfl
  | ok s' =>
      dsimp only
      split
      · split
        · rfl
        · split
          · rfl
          · exact afterUndo_view _ _ _ _
      · exact afterUndo_view _ _ _ _

theorem resolveArgs_view (R : Rules) (cfg : Config) (ctx : Ctx) (d : FDP)
    (act : String) (desc : ADesc) (ps : Int) :
    (ctxOf (resolveArgs R cfg ctx d act desc ps)).view = ctx.view := by
  unfold resolveArgs
  cases desc with
  | arr xs =>
      dsimp only
      split
      · rfl
      · exact applyAction_view _ _ _ _ _ _ _
  | bool b => exact applyAction_view _ _ _ _ _ _ _
  | num n => exact applyAction_view _ _ _ _ _ _ _

/-- Claim C5 (confirmed): when the remaining bytes fall below the fixed
threshold of 16 — at run start or at the start of any loop iteration — the
driver returns silently: no violation is raised, and the artifact store is
left untouched (a silent outcome never writes a crash artifact). -/
theorem C5_entropy_silent (R : Rules) (cfg : Config) (clock : Nat → Nat)
    (bytes : List Nat) (fs : FS) :
    (bytes.length < 16 → fuzz R cfg clock bytes fs = ⟨.silent, [], 0, fs⟩) ∧
    (∀ (t : Bool) (ctx : Ctx) (d : FDP), d.remainingBytes < 16 →
       stepIter R cfg t ctx d = .stop .silent ctx d) ∧
    ((fuzz R cfg clock bytes fs).outcome = .silent →
       (fuzz R cfg clock bytes fs).fs = fs) := by
  refine ⟨?_, ?_, ?_⟩
  · intro h
    unfold fuzz
    rw [if_pos (show (⟨bytes⟩ : FDP).remainingBytes < 16 from h)]
  · intro t c d h
    unfold stepIter
    rw [if_pos h]
  · intro h
    unfold fuzz at h ⊢
    by_cases hb : (⟨bytes⟩ : FDP).remainingBytes < 16
    · rw [if_pos hb]
    · rw [if_neg hb] at h ⊢
      dsimp only at h ⊢
      rw [h]

/-- Witness for C5 at a concrete 15-byte input. -/
theorem C5_entropy_silent_witness :
    fuzz passRules cfg0 clockA (List.replicate 15 0) [] =
      ⟨.silent, [], 0, []⟩ :=
  (C5_entropy_silent passRules cfg0 clockA (List.replicate 15 0) []).1
    (by decide)

/-- Claim C4 (confirmed): every action whose domain descriptor is false, 0,
or an empty enumerated sequence is removed by the filtering step and is
never the selected action; when the filtered candidate set (after the
optional undo removal) is empty, the driver emits the dead-end NoActions
violation in that step. -/
theorem C4_dead_end_detection (R : Rules) (cfg : Config) (ctx : Ctx) (d : FDP)
    (acts : List (String × ADesc)) (hnd : (acts.map Prod.fst).Nodup) :
    (∀ k v, (k, v) ∈ acts → isDisabledDesc v = true →
       (k, v) ∉ filterActions cfg acts) ∧
    (filterActions cfg acts ≠ [] →
       ∀ v, ((d.pickValue ((filterActions cfg acts).map Prod.fst) "").1, v) ∈ acts →
         isDisabledDesc v = false) ∧
    (filterActions cfg acts = [] →
       emitted (selectPhase R cfg ctx d acts) = some (.NoMoreActionsError none)) := by
  refine ⟨?_, ?_, ?_⟩
  · intro k v _ hd hcon
    have := (List.mem_filter.1 hcon).2
    simp [hd] at this
  · intro hne v hv
    have hmap : (filterActions cfg acts).map Prod.fst ≠ [] := by
      intro hx
      exact hne (List.map_eq_nil_iff.mp hx)
    have hmem := pickValue_fst_mem d ((filterActions cfg acts).map Prod.fst)
      "" hmap
    obtain ⟨⟨k2, v2⟩, hin, hfst⟩ := List.mem_map.1 hmem
    have hv2 : isDisabledDesc v2 = false := by
      have := (List.mem_filter.1 hin).2
      simpa using this
    have hin1 : (k2, v2) ∈ acts := by
      have h1 := List.mem_of_mem_filter hin
      by_cases hu : cfg.NO_UNDO
      · unfold filterActions at h1
        rw [if_pos hu] at h1
        exact List.mem_of_mem_filter h1
      · unfold filterActions at h1
        rw [if_neg hu] at h1
        exact h1
    dsimp only at hfst
    rw [← hfst] at hv
    rw [nodup_key_eq hnd hv hin1]
    exact hv2
  · intro he
    unfold selectPhase
    dsimp only
    rw [if_pos (by rw [he]; rfl)]
    rfl

/-- Witness for C4: a disabled action plus an enabled pass action, and a
fully disabled action set leading to the dead-end violation. -/
theorem C4_dead_end_detection_witness :
    (("a", ADesc.num 0) ∉
       filterActions cfg0 [("a", ADesc.num 0), ("pass", ADesc.bool true)]) ∧
    emitted (selectPhase passRules cfg0 ctx0 d0 [("a", ADesc.num 0)]) =
      some (.NoMoreActionsError none) :=
  ⟨(C4_dead_end_detection passRules cfg0 ctx0 d0
      [("a", ADesc.num 0), ("pass", ADesc.bool true)] (by decide)).1
      "a" (ADesc.num 0) (List.mem_cons_self _ _) rfl,
   (C4_dead_end_detection passRules cfg0 ctx0 d0 [("a", ADesc.num 0)]
      (by decide)).2.2 rfl⟩

/-- Claim C7 (confirmed): for an enumerated argument sequence the driver
raises InvalidActionArgument when some entry is non-numeric, before any
element is picked (the cursor is returned unconsumed); otherwise it picks
exactly one element of the sequence via the cursor and raises no
InvalidActionArgument. -/
theorem C7_nan_argument_check (R : Rules) (cfg : Config) (ctx : Ctx) (d : FDP)
    (act : String) (ps : Int) (xs : List JVal) :
    (xs.any jsIsNaN = true →
       resolveArgs R cfg ctx d act (.arr xs) ps =
         .stop (.viol (.InvalidActionArgument act)) ctx d) ∧
    (xs.any jsIsNaN = false →
       (resolveArgs R cfg ctx d act (.arr xs) ps =
         applyAction R cfg
           { ctx with replay := ctx.replay ++
               [⟨some ctx.active, act, some (d.pickValue xs (.num 0)).1⟩] }
           (d.pickValue xs (.num 0)).2 act (some (d.pickValue xs (.num 0)).1)
           ps) ∧
       (xs ≠ [] → (d.pickValue xs (.num 0)).1 ∈ xs) ∧
       (∀ a, emitted (resolveArgs R cfg ctx d act (.arr xs) ps) ≠
          some (.InvalidActionArgument a))) := by
  constructor
  · intro h
    unfold resolveArgs
    dsimp only
    rw [if_pos h]
  · intro h
    have heq : resolveArgs R cfg ctx d act (.arr xs) ps =
        applyAction R cfg
          { ctx with replay := ctx.replay ++
              [⟨some ctx.active, act, some (d.pickValue xs (.num 0)).1⟩] }
          (d.pickValue xs (.num 0)).2 act (some (d.pickValue xs (.num 0)).1)
          ps := by
      unfold resolveArgs
      dsimp only
      rw [if_neg (by simp [h])]
    refine ⟨heq, fun hne => pickValue_fst_mem d xs (.num 0) hne, ?_⟩
    intro a hc
    rw [heq] at hc
    rcases applyAction_emits _ _ _ _ _ _ _ _ hc with ⟨e, h1⟩ | ⟨_, h1 | h1⟩ | ⟨e, h1⟩ <;>
      exact Violation.noConfusion h1

/-- Witness for C7: a NaN entry raises the violation without consuming
bytes, and a clean sequence picks a member. -/
theorem C7_nan_argument_check_witness :
    (resolveArgs passRules cfg0 ctx0 d0 "foo" (.arr [.str "x", .num 1]) 1 =
       .stop (.viol (.InvalidActionArgument "foo")) ctx0 d0) ∧
    (d0.pickValue [JVal.num 7, JVal.num 9] (.num 0)).1 ∈
      [JVal.num 7, JVal.num 9] :=
  ⟨(C7_nan_argument_check passRules cfg0 ctx0 d0 "foo" 1
      [.str "x", .num 1]).1 (by decide),
   ((C7_nan_argument_check passRules cfg0 ctx0 d0 "foo" 1
      [.num 7, .num 9]).2 (by decide)).2.1 (by simp)⟩

/-- Claim C3 (corrected): after a normally returning undo application the
driver raises UndoActive when the resulting active is neither the acting
role nor the Both sentinel; it raises UndoSeed when the seed changed and
the active check passed (the active check takes precedence, so a step that
violates both raises only UndoActive); it raises neither when undo
preserves both; and non-undo actions never trigger either check. -/
theorem C3_undo_postconditions (R : Rules) (cfg : Config) (ctx : Ctx)
    (d : FDP) (args : Option JVal) (ps : Int) (s' : GameState)
    (hok : R.action ctx.state ctx.active "undo" args = .ok s') :
    ((¬s'.active = ctx.active ∧ ¬s'.active = "Both") →
       emitted (applyAction R cfg ctx d "undo" args ps) =
         some .UndoActiveError) ∧
    ((s'.active = ctx.active ∨ s'.active = "Both") → s'.seed ≠ ps →
       emitted (applyAction R cfg ctx d "undo" args ps) =
         some .UndoSeedError) ∧
    (((s'.active = ctx.active ∨ s'.active = "Both") ∧ s'.seed = ps) →
       emitted (applyAction R cfg ctx d "undo" args ps) ≠
         some .UndoActiveError ∧
       emitted (applyAction R cfg ctx d "undo" args ps) ≠
         some .UndoSeedError) ∧
    (∀ act, act ≠ "undo" → ∀ (args2 : Option JVal) (ps2 : Int),
       emitted (applyAction R cfg ctx d act args2 ps2) ≠
         some .UndoActiveError ∧
       emitted (applyAction R cfg ctx d act args2 ps2) ≠
         some .UndoSeedError) := by
  refine ⟨?_, ?_, ?_, ?_⟩
  · intro hA
    unfold applyAction
    dsimp only
    rw [hok]
    dsimp only
    rw [if_pos rfl, if_pos hA]
    rfl
  · intro hA hS
    unfold applyAction
    dsimp only
    rw [hok]
    dsimp only
    rw [if_pos rfl,
        if_neg (fun hc => hA.elim (fun h => hc.1 h) (fun h => hc.2 h)),
        if_pos hS]
    rfl
  · rintro ⟨hA, hS⟩
    unfold applyAction
    dsimp only
    rw [hok]
    dsimp only
    rw [if_pos rfl,
        if_neg (fun hc => hA.elim (fun h => hc.1 h) (fun h => hc.2 h)),
        if_neg (fun hc => hc hS)]
    constructor
    · intro hc
      obtain ⟨e, he⟩ := afterUndo_emits _ _ _ _ _ hc
      exact Violation.noConfusion he
    · intro hc
      obtain ⟨e, he⟩ := afterUndo_emits _ _ _ _ _ hc
      exact Violation.noConfusion he
  · intro act hu args2 ps2
    constructor
    · intro hc
      rcases applyAction_emits _ _ _ _ _ _ _ _ hc with ⟨e, h1⟩ | ⟨h1, _⟩ | ⟨e, h1⟩
      · exact Violation.noConfusion h1
      · exact hu h1
      · exact Violation.noConfusion h1
    · intro hc
      rcases applyAction_emits _ _ _ _ _ _ _ _ hc with ⟨e, h1⟩ | ⟨h1, _⟩ | ⟨e, h1⟩
      · exact Violation.noConfusion h1
      · exact hu h1
      · exact Violation.noConfusion h1

/-- Witness for C3 at the mis-behaving stub adapter: its undo flips active
to an unrelated role, and the driver classifies the step UndoActive. -/
theorem C3_undo_postconditions_witness :
    emitted (applyAction badUndoRules cfg0 ctx0 d0 "undo" none 1) =
      some .UndoActiveError :=
  (C3_undo_postconditions badUndoRules cfg0 ctx0 d0 none 1
      ⟨"C", "playing", 999, []⟩ rfl).1 (by decide)

/-- Counterexample for C3 as stated: when undo both flips active to an
unrelated role and changes the seed, the driver raises UndoActive, not the
UndoSeed the claim promises for any seed change. -/
theorem C3_claim_false : ¬ claimC3 := by
  intro h
  have h2 := (h badUndoRules cfg0 ctx0 d0 none 1 ⟨"C", "playing", 999, []⟩
      rfl).2.1 (by decide)
  have he : emitted (applyAction badUndoRules cfg0 ctx0 d0 "undo" none 1) =
      some .UndoActiveError := rfl
  rw [he] at h2
  exact Violation.noConfusion (Option.some.inj h2)

/-- Claim C6 (corrected): for a scalar argument-domain descriptor (number or
boolean) the driver consumes no further bytes, but it does not pass the
scalar as the action argument — it discards it and invokes the action with
an undefined argument, recording a two-element replay entry. -/
theorem C6_scalar_argument (R : Rules) (cfg : Config) (ctx : Ctx) (d : FDP)
    (act : String) (ps : Int) :
    (∀ n : Int, resolveArgs R cfg ctx d act (.num n) ps =
       applyAction R cfg
         { ctx with replay := ctx.replay ++ [⟨some ctx.active, act, none⟩] }
         d act none ps) ∧
    (∀ b : Bool, resolveArgs R cfg ctx d act (.bool b) ps =
       applyAction R cfg
         { ctx with replay := ctx.replay ++ [⟨some ctx.active, act, none⟩] }
         d act none ps) :=
  ⟨fun _ => rfl, fun _ => rfl⟩

/-- Counterexample for C6 as stated: against an adapter whose action records
whether an argument was passed, the driver's handling of the scalar
descriptor 5 reaches the action with no argument (seed 200), not with the
scalar passed as-is (seed 100). -/
theorem C6_claim_false : ¬ claimC6 := by
  intro h
  obtain ⟨ctx', hstate, heq⟩ := h argProbeRules cfg0 ctx0 d0 "foo" 1 5
  have hL : resolveArgs argProbeRules cfg0 ctx0 d0 "foo" (.num 5) 1 =
      .cont { ctx0 with
        replay := ctx0.replay ++ [⟨some "A", "foo", none⟩],
        state := ⟨"A", "playing", 200, []⟩,
        step := 1, acount := 1 } d0 := rfl
  rw [hL] at heq
  unfold applyAction at heq
  dsimp only at heq
  rw [show argProbeRules.action ctx'.state ctx'.active "foo"
        (some (.num 5)) = .ok { ctx'.state with seed := 100 } from rfl] at heq
  dsimp only at heq
  rw [if_neg (by decide : ¬("foo" = "undo"))] at heq
  unfold afterUndo at heq
  rw [show (if cfg0.NO_ASSERT then none else argProbeRules.assert_state) =
        none from rfl] at heq
  dsimp only at heq
  injection heq with h1 h2
  have := congrArg (fun c => c.state.seed) h1
  simp at this

/-- Claim C10 (corrected): the filtering step operates on the very actions
object the adapter's View holds, so after filtering the View's actions
mapping equals the filtered mapping — the adapter's returned View is mutated
in place whenever filtering removes an action, not defensively copied. -/
theorem C10_filtering_updates_view (R : Rules) (cfg : Config) (ctx : Ctx)
    (d : FDP) (acts : List (String × ADesc)) :
    (ctxOf (selectPhase R cfg ctx d acts)).view =
      { ctx.view with actions := some (filterActions cfg acts) } := by
  unfold selectPhase
  dsimp only
  by_cases he : (filterActions cfg acts).isEmpty = true
  · rw [if_pos he]; rfl
  · rw [if_neg he]
    exact resolveArgs_view _ _ _ _ _ _ _

/-- Counterexample for C10 as stated: filtering a view holding a disabled
action and an enabled pass action leaves the view's actions mapping with
only the pass action — the adapter's View object was mutated. -/
theorem C10_claim_false : ¬ claimC10 := by
  intro h
  have h1 := h passRules cfg0
      { ctx0 with view := ⟨none, some [("a", .num 0), ("pass", .bool true)]⟩ }
      d0 [("a", .num 0), ("pass", .bool true)] rfl
  have h2 : (ctxOf (selectPhase passRules cfg0
      { ctx0 with view := ⟨none, some [("a", .num 0), ("pass", .bool true)]⟩ }
      d0 [("a", .num 0), ("pass", .bool true)])).view =
      ⟨none, some [("pass", .bool true)]⟩ := rfl
  rw [h2] at h1
  have h3 := congrArg (fun v => (v.actions.getD []).length) h1
  simp at h3

/-- Claim C2 (corrected): in an iteration that is not already terminated by
an earlier-ordered check (positive step limit, wall-clock timeout, schema
validation), the serialization comparison governs the mutation check: when
the state serialized after the view call differs from the pre-view snapshot
and deep_compare returns a diff, the driver emits ViewStateMutation with
its key paths; when the serializations differ but deep_compare throws its
TypeError (a property access through an undefined or null base, or a
null-valued property of the post-view state), the exception escapes the
driver uncaught and no violation is emitted; when the serializations agree,
no ViewStateMutation is ever emitted in that iteration. -/
theorem C2_view_mutation_check (R : Rules) (cfg : Config) (timedOut : Bool)
    (preJ : JVal) (ctx : Ctx) (d : FDP)
    (h1 : ¬(0 < cfg.MAX_STEPS ∧ cfg.MAX_STEPS < (ctx.step : Int)))
    (h2 : ¬(timedOut = true))
    (h3 : ¬((match (if cfg.NO_SCHEMA then none else R.viewSchema) with
             | some p => !p ctx.view
             | none => false) = true)) :
    (∀ dv, JVal.stringify preJ ≠ JVal.stringify ctx.state.toJVal →
       deep_compare (some preJ) ctx.state.toJVal = .ok dv →
       emitted (postViewChecks R cfg timedOut preJ ctx d) =
         some (.ViewStateMutationError (object_keypaths dv ""))) ∧
    (∀ e, JVal.stringify preJ ≠ JVal.stringify ctx.state.toJVal →
       deep_compare (some preJ) ctx.state.toJVal = .error e →
       postViewChecks R cfg timedOut preJ ctx d = .stop (.uncaught e) ctx d) ∧
    (JVal.stringify preJ = JVal.stringify ctx.state.toJVal →
       ∀ ks, emitted (postViewChecks R cfg timedOut preJ ctx d) ≠
         some (.ViewStateMutationError ks)) := by
  refine ⟨?_, ?_, ?_⟩
  · intro dv hne hdc
    unfold postViewChecks
    rw [if_neg h1, if_neg h2, if_neg h3, if_pos hne, hdc]
    rfl
  · intro e hne hdc
    unfold postViewChecks
    rw [if_neg h1, if_neg h2, if_neg h3, if_pos hne, hdc]
  · intro heq ks hc
    unfold postViewChecks at hc
    rw [if_neg h1, if_neg h2, if_neg h3, if_neg (fun hn => hn heq)] at hc
    by_cases h5 : ctx.state.status = "game_over"
    · rw [if_pos h5] at hc
      exact Option.noConfusion hc
    · rw [if_neg h5] at hc
      by_cases h6 : (match ctx.view.prompt with
                     | some p => p.startsWith "Unknown state:"
                     | none => false) = true
      · rw [if_pos h6] at hc
        simp only [emitted, Option.some.injEq] at hc
        exact Violation.noConfusion hc
      · rw [if_neg h6] at hc
        cases hacts : ctx.view.actions with
        | none =>
            rw [hacts] at hc
            simp only [emitted, Option.some.injEq] at hc
            exact Violation.noConfusion hc
        | some acts =>
            rw [hacts] at hc
            rcases selectPhase_emits _ _ _ _ _ _ hc with
              hv | ⟨a, hv⟩ | ⟨e, hv⟩ | hv | hv | ⟨e, hv⟩ <;>
              exact Violation.noConfusion hv

/-- Witness for C2 at a concrete mutated state: the seed changed from 1 to
2, deep_compare returns the seed diff, and the check fires reporting its
key path. -/
theorem C2_view_mutation_check_witness :
    emitted (postViewChecks mutRules cfg0 false state0.toJVal ctxMut d0) =
      some (.ViewStateMutationError
        (object_keypaths (DiffV.node false [("seed", .leaf (.num 2))]) "")) :=
  (C2_view_mutation_check mutRules cfg0 false state0.toJVal ctxMut d0
      (by decide) (by decide) (by decide)).1
    (DiffV.node false [("seed", .leaf (.num 2))]) (by decide) rfl

/-- Counterexample for C2 as stated: when the view call mutates the state
by adding a null-valued field, the serializations differ but deep_compare
recurses into the null property (typeof null is object) and its
Object.getOwnPropertyNames(null) throws, so the diff computation never
returns key paths and the uncaught TypeError means no ViewStateMutation is
emitted. -/
theorem C2_claim_false : ¬ claimC2 := by
  intro h
  obtain ⟨dv, hdv, _⟩ :=
    (h mutRules cfg0 false state0.toJVal ctxNull d0).1 (by decide)
  have he : deep_compare (some state0.toJVal) ctxNull.state.toJVal =
      .error "TypeError: Object.getOwnPropertyNames called on null" := rfl
  rw [he] at hdv
  exact Except.noConfusion hdv

theorem runLoop_step (R : Rules) (cfg : Config) (clock : Nat → Nat)
    (dl fuel i : Nat) (ctx : Ctx) (d : FDP) :
    runLoop R cfg clock dl (fuel + 1) i ctx d =
      match stepIter R cfg ((cfg.TIMEOUT != 0) && decide (dl < clock i))
          ctx d with
      | .cont ctx' d' => runLoop R cfg clock dl fuel (i + 1) ctx' d'
      | .stop o ctx' d' => (o, ctx', d') := rfl

theorem stepA1 : stepIter passRules cfgT false ctxI ⟨List.replicate 32 0⟩ =
    .cont ctxII ⟨List.replicate 24 0⟩ := rfl

theorem stepA2 : stepIter passRules cfgT false ctxII ⟨List.replicate 24 0⟩ =
    .stop .completed ctxII ⟨List.replicate 24 0⟩ := rfl

theorem stepB1 : stepIter passRules cfgT true ctxI ⟨List.replicate 32 0⟩ =
    .stop (.viol .TimeoutError) ctxTO ⟨List.replicate 32 0⟩ := rfl

theorem stepC1 : stepIter passRules cfg0 false ctxI ⟨List.replicate 32 0⟩ =
    .cont ctxII ⟨List.replicate 24 0⟩ := rfl

theorem stepC2 : stepIter passRules cfg0 false ctxII ⟨List.replicate 24 0⟩ =
    .stop .completed ctxII ⟨List.replicate 24 0⟩ := rfl

theorem runA : runLoop passRules cfgT clockA 1 49 1 ctxI
    ⟨List.replicate 32 0⟩ = (.completed, ctxII, ⟨List.replicate 24 0⟩) := by
  rw [show (49 : Nat) = 48 + 1 from rfl, runLoop_step,
      show ((cfgT.TIMEOUT != 0) && decide ((1 : Nat) < clockA 1)) = false
        from rfl,
      stepA1]
  show runLoop passRules cfgT clockA 1 48 2 ctxII ⟨List.replicate 24 0⟩ = _
  rw [show (48 : Nat) = 47 + 1 from rfl, runLoop_step,
      show ((cfgT.TIMEOUT != 0) && decide ((1 : Nat) < clockA 2)) = false
        from rfl,
      stepA2]

theorem runB : runLoop passRules cfgT clockB 1 49 1 ctxI
    ⟨List.replicate 32 0⟩ =
    (.viol .TimeoutError, ctxTO, ⟨List.replicate 32 0⟩) := by
  rw [show (49 : Nat) = 48 + 1 from rfl, runLoop_step,
      show ((cfgT.TIMEOUT != 0) && decide ((1 : Nat) < clockB 1)) = true
        from rfl,
      stepB1]

theorem runC : runLoop passRules cfg0 clockA 0 49 1 ctxI
    ⟨List.replicate 32 0⟩ = (.completed, ctxII, ⟨List.replicate 24 0⟩) := by
  rw [show (49 : Nat) = 48 + 1 from rfl, runLoop_step,
      show ((cfg0.TIMEOUT != 0) && decide ((0 : Nat) < clockA 1)) = false
        from rfl,
      stepC1]
  show runLoop passRules cfg0 clockA 0 48 2 ctxII ⟨List.replicate 24 0⟩ = _
  rw [show (48 : Nat) = 47 + 1 from rfl, runLoop_step,
      show ((cfg0.TIMEOUT != 0) && decide ((0 : Nat) < clockA 2)) = false
        from rfl,
      stepC2]

theorem fuzz_eval (R : Rules) (cfg : Config) (clock : Nat → Nat)
    (bytes : List Nat) (fs : FS) (o : Outcome) (ctx' : Ctx) (dd : FDP)
    (ctxStart : Ctx) (dStart : FDP) (dl fuel : Nat) (fsOut : FS)
    (hb : ¬((⟨bytes⟩ : FDP).remainingBytes < 16))
    (hdl : (if cfg.TIMEOUT ≠ 0 then clock 0 + cfg.TIMEOUT else 0) = dl)
    (hfuel : bytes.length + 1 = fuel)
    (hctx : ({ dataBytes := bytes
               scenario := (initDraws R bytes).2.1
               options := []
               players := R.roles.map fun r => (r, "rtt-fuzzer")
               replay := [⟨none, ".setup",
                 some (.arr [.num (initDraws R bytes).1,
                   .str (initDraws R bytes).2.1, .obj []])⟩]
               state := R.setup (initDraws R bytes).1 (initDraws R bytes).2.1 []
               active := ""
               step := 0
               view := emptyView
               acount := 0 } : Ctx) = ctxStart)
    (hd : (initDraws R bytes).2.2 = dStart)
    (hfs : (match o with
            | Outcome.viol _ => log_crash cfg ctx' fs
            | _ => fs) = fsOut)
    (hrun : runLoop R cfg clock dl fuel 1 ctxStart dStart = (o, ctx', dd)) :
    fuzz R cfg clock bytes fs = ⟨o, ctx'.replay, ctx'.acount, fsOut⟩ := by
  unfold fuzz
  dsimp only
  rw [if_neg hb, hdl, hfuel, hctx, hd, hrun, ← hfs]

theorem fuzzA : fuzz passRules cfgT clockA bytes48 [] =
    ⟨.completed, ctxII.replay, ctxII.acount, []⟩ :=
  fuzz_eval passRules cfgT clockA bytes48 [] .completed ctxII
    ⟨List.replicate 24 0⟩ ctxI ⟨List.replicate 32 0⟩ 1 49 [] (by decide)
    rfl rfl rfl rfl rfl runA

theorem fuzzB : fuzz passRules cfgT clockB bytes48 [] =
    ⟨.viol .TimeoutError, ctxTO.replay, ctxTO.acount,
      log_crash cfgT ctxTO []⟩ :=
  fuzz_eval passRules cfgT clockB bytes48 [] (.viol .TimeoutError) ctxTO
    ⟨List.replicate 32 0⟩ ctxI ⟨List.replicate 32 0⟩ 1 49
    (log_crash cfgT ctxTO []) (by decide) rfl rfl rfl rfl rfl runB

theorem fuzzC : fuzz passRules cfg0 clockA bytes48 [] =
    ⟨.completed, ctxII.replay, ctxII.acount, []⟩ :=
  fuzz_eval passRules cfg0 clockA bytes48 [] .completed ctxII
    ⟨List.replicate 24 0⟩ ctxI ⟨List.replicate 32 0⟩ 0 49 [] (by decide)
    rfl rfl rfl rfl rfl runC

/-- Claim C1 (corrected): with the wall-clock deadline disabled the driver
is a pure function of the byte buffer — two invocations under arbitrary,
possibly different clocks produce identical results (replay, classification
and artifacts); the clock is the only source of divergence between
independent invocations. -/
theorem C1_determinism_fixed_clock (R : Rules) (cfg : Config)
    (c1 c2 : Nat → Nat) (bytes : List Nat) (fs : FS)
    (h : cfg.TIMEOUT = 0) :
    fuzz R cfg c1 bytes fs = fuzz R cfg c2 bytes fs := by
  unfold fuzz
  dsimp only
  by_cases hb : (⟨bytes⟩ : FDP).remainingBytes < 16
  · rw [if_pos hb, if_pos hb]
  · rw [if_neg hb, if_neg hb]
    have hdl1 : (if cfg.TIMEOUT ≠ 0 then c1 0 + cfg.TIMEOUT else 0) = 0 := by
      rw [h]; simp
    have hdl2 : (if cfg.TIMEOUT ≠ 0 then c2 0 + cfg.TIMEOUT else 0) = 0 := by
      rw [h]; simp
    rw [hdl1, hdl2,
        runLoop_clock_free R cfg c1 c2 h (bytes.length + 1) 1 1 0 0 _ _]

/-- Witness for C1: the two different clocks agree on the whole run when
the deadline is disabled. -/
theorem C1_determinism_fixed_clock_witness :
    fuzz passRules cfg0 clockA bytes48 [] =
      fuzz passRules cfg0 clockB bytes48 [] :=
  C1_determinism_fixed_clock passRules cfg0 clockA clockB bytes48 [] rfl

/-- Counterexample for C1 as stated: with the default-style wall-clock
deadline enabled, the same buffer completes under a still clock but is
classified Timeout under a fast clock — two independent invocations
disagree. -/
theorem C1_claim_false : ¬ claimC1 := by
  intro h
  have h2 := (h passRules cfgT clockA clockB bytes48 []).2
  rw [fuzzA, fuzzB] at h2
  exact Outcome.noConfusion h2

/-- Claim C8 (confirmed): replay entry 0 records the setup call with the
drawn seed, the picked scenario and the empty options; each applied step
appends exactly one entry before its action is applied, so a run that ends
with the game-over status after applying N actions has a replay of length
N + 1. -/
theorem C8_replay_structure (R : Rules) (cfg : Config) (clock : Nat → Nat)
    (bytes : List Nat) (fs : FS)
    (h : (fuzz R cfg clock bytes fs).outcome = .completed) :
    (fuzz R cfg clock bytes fs).replay.head? =
      some ⟨none, ".setup",
        some (.arr [.num (initDraws R bytes).1, .str (initDraws R bytes).2.1,
          .obj []])⟩ ∧
    (fuzz R cfg clock bytes fs).replay.length =
      (fuzz R cfg clock bytes fs).acount + 1 := by
  unfold fuzz at h ⊢
  dsimp only at h ⊢
  by_cases hb : (⟨bytes⟩ : FDP).remainingBytes < 16
  · rw [if_pos hb] at h
    exact Outcome.noConfusion h
  · rw [if_neg hb] at h ⊢
    dsimp only at h ⊢
    have hne : ([⟨none, ".setup",
        some (.arr [.num (initDraws R bytes).1, .str (initDraws R bytes).2.1,
          .obj []])⟩] : List ReplayEntry) ≠ [] :=
      List.cons_ne_nil _ _
    obtain ⟨hlen, hhead⟩ := runLoop_completed R cfg clock
      (if cfg.TIMEOUT ≠ 0 then clock 0 + cfg.TIMEOUT else 0)
      (bytes.length + 1) 1 _ _ hne h
    constructor
    · rw [hhead]
      rfl
    · simp only [List.length_cons, List.length_nil] at hlen
      omega

/-- Witness for C8: the pass adapter completes after one action with a
replay of length two headed by the setup entry. -/
theorem C8_replay_structure_witness :
    (fuzz passRules cfg0 clockA bytes48 []).replay.head? =
      some ⟨none, ".setup",
        some (.arr [.num (initDraws passRules bytes48).1,
          .str (initDraws passRules bytes48).2.1, .obj []])⟩ ∧
    (fuzz passRules cfg0 clockA bytes48 []).replay.length =
      (fuzz passRules cfg0 clockA bytes48 []).acount + 1 :=
  C8_replay_structure passRules cfg0 clockA bytes48 [] (by rw [fuzzC])

theorem log_crash_rawInv (cfg : Config) (x : Ctx) (fs : FS)
    (hInv : ∀ hsh v, fsFind fs (.rawInput hsh) = some v → v = hsh) :
    ∀ hsh v, fsFind (log_crash cfg x fs) (.rawInput hsh) = some v → v = hsh := by
  intro hsh v h
  unfold log_crash at h
  dsimp only at h
  cases hf : fsFind fs (.artifact (gameJson x)) with
  | some s => rw [hf] at h; exact hInv hsh v h
  | none =>
      rw [hf] at h
      dsimp only at h
      by_cases hc : cfg.NO_CRASH = true
      · rw [if_pos hc] at h
        simp only [fsFind] at h
        by_cases hk : FKey.rawInput (dataKey x.dataBytes) = FKey.rawInput hsh
        · rw [if_pos hk] at h
          injection hk with hk2
          injection h with h2
          rw [← h2]
          exact hk2
        · rw [if_neg hk, if_neg (fun hE => FKey.noConfusion hE)] at h
          exact hInv hsh v h
      · rw [if_neg hc] at h
        simp only [fsFind] at h
        rw [if_neg (fun hE => FKey.noConfusion hE)] at h
        exact hInv hsh v h

theorem log_crash_preserves (cfg : Config) (x : Ctx) (fs : FS)
    (hInv : ∀ hsh v, fsFind fs (.rawInput hsh) = some v → v = hsh)
    (k : FKey) (v : String) (h : fsFind fs k = some v) :
    fsFind (log_crash cfg x fs) k = some v := by
  unfold log_crash
  dsimp only
  cases hf : fsFind fs (.artifact (gameJson x)) with
  | some s => exact h
  | none =>
      dsimp only
      by_cases hc : cfg.NO_CRASH = true
      · rw [if_pos hc]
        simp only [fsFind]
        by_cases hk1 : FKey.rawInput (dataKey x.dataBytes) = k
        · rw [if_pos hk1]
          have hv : v = dataKey x.dataBytes := by
            apply hInv (dataKey x.dataBytes) v
            rw [hk1]
            exact h
          rw [hv]
        · rw [if_neg hk1]
          by_cases hk2 : FKey.artifact (gameJson x) = k
          · exfalso
            rw [← hk2] at h
            rw [hf] at h
            exact Option.noConfusion h
          · rw [if_neg hk2]
            exact h
      · rw [if_neg hc]
        simp only [fsFind]
        by_cases hk2 : FKey.artifact (gameJson x) = k
        · exfalso
          rw [← hk2] at h
          rw [hf] at h
          exact Option.noConfusion h
        · rw [if_neg hk2]
          exact h

theorem runCrashes_inv : ∀ (cs : List (Config × Ctx)),
    ∀ hsh v, fsFind (runCrashes cs) (.rawInput hsh) = some v → v = hsh := by
  suffices hgen : ∀ (cs : List (Config × Ctx)) (fs : FS),
      (∀ hsh v, fsFind fs (.rawInput hsh) = some v → v = hsh) →
      ∀ hsh v, fsFind (cs.foldl (fun fs p => log_crash p.1 p.2 fs) fs)
        (.rawInput hsh) = some v → v = hsh by
    intro cs
    exact hgen cs [] (fun hsh v h => Option.noConfusion h)
  intro cs
  induction cs with
  | nil => intro fs hInv; exact hInv
  | cons p t ih =>
      intro fs hInv
      exact ih (log_crash p.1 p.2 fs) (log_crash_rawInv p.1 p.2 fs hInv)

theorem foldl_log_preserves : ∀ (cs : List (Config × Ctx)) (fs : FS),
    (∀ hsh v, fsFind fs (.rawInput hsh) = some v → v = hsh) →
    ∀ k v, fsFind fs k = some v →
    fsFind (cs.foldl (fun fs p => log_crash p.1 p.2 fs) fs) k = some v := by
  intro cs
  induction cs with
  | nil => intro fs _ k v h; exact h
  | cons p t ih =>
      intro fs hInv k v h
      exact ih (log_crash p.1 p.2 fs) (log_crash_rawInv p.1 p.2 fs hInv) k v
        (log_crash_preserves p.1 p.2 fs hInv k v h)

/-- Claim C9 (confirmed): the first violation whose artifact maps to a key
writes the artifact file for that key, and across any sequence of reported
violations a file, once persisted under a key, keeps its contents — later
violations mapping to the same key never change it. -/
theorem C9_artifact_dedup :
    (∀ (cfg : Config) (x : Ctx) (fs : FS),
       fsFind fs (.artifact (gameJson x)) = none →
       fsFind (log_crash cfg x fs) (.artifact (gameJson x)) =
         some (gameJson x)) ∧
    (∀ (cs1 cs2 : List (Config × Ctx)) (k : FKey) (v : String),
       fsFind (runCrashes cs1) k = some v →
       fsFind (runCrashes (cs1 ++ cs2)) k = some v) := by
  constructor
  · intro cfg x fs hf
    unfold log_crash
    dsimp only
    rw [hf]
    dsimp only
    by_cases hc : cfg.NO_CRASH = true
    · rw [if_pos hc]
      simp [fsFind]
    · rw [if_neg hc]
      simp [fsFind]
  · intro cs1 cs2 k v h
    have hsplit : runCrashes (cs1 ++ cs2) =
        cs2.foldl (fun fs p => log_crash p.1 p.2 fs) (runCrashes cs1) := by
      unfold runCrashes
      rw [List.foldl_append]
    rw [hsplit]
    exact foldl_log_preserves cs2 (runCrashes cs1) (runCrashes_inv cs1) k v h

/-- Witness for C9: reporting the same crash twice leaves exactly the first
artifact under its key. -/
theorem C9_artifact_dedup_witness :
    fsFind (runCrashes ([(cfg0, ctx0)] ++ [(cfg0, ctx0)]))
      (.artifact (gameJson ctx0)) = some (gameJson ctx0) :=
  C9_artifact_dedup.2 [(cfg0, ctx0)] [(cfg0, ctx0)] _ _ (by decide)
